import Mathlib

/-!
Verification development for a resource-reservation web application
(`src/app.py`).  The application keeps a snapshot of active reservations
(a mapping from resource id to reservation record), sweeps expired
entries before every request, and exposes reserve/release handlers
guarded by an ownership rule.  Persistence is a whole-file YAML snapshot
written via a temporary file and an atomic rename.

Modelling conventions, stated once here:
* Instants are natural numbers counting minutes in the application's
  configured timezone on a linear clock (a fixed-offset model; daylight
  saving transitions are not modelled).  One day is 1440 minutes.
* All calls to `_iso_now()` made during a single request are modelled as
  returning one instant `now`: each operation is atomic with respect to
  the clock, as the spec's linearization model prescribes.
* A reservation's stored `expires_at` field is an ISO-8601 string in the
  source; here it is `Option Nat`: `some e` is a timestamp that
  `datetime.fromisoformat` parses back to the instant `e`, and `none`
  models a field that is missing, empty (Python-falsy), or not a
  parseable timestamp.
* Python dictionaries keyed by resource id are association lists; the
  reserve handler only inserts under a not-present guard, so key
  uniqueness is an invariant proved below, not a structural assumption.
* Strings are modelled exactly; Python `int()` parsing is modelled for
  ASCII input (optional surrounding ASCII whitespace, an optional sign,
  decimal digits with single underscores between digits).
-/

/-! ### Python string-to-int parsing (`int(x)` inside `_parse_hhmm`) -/

/-- The ASCII whitespace characters stripped by Python `int()`. -/
def pySpace (c : Char) : Bool :=
  c = ' ' || c = '\t' || c = '\n' || c = '\r' || c = Char.ofNat 11 || c = Char.ofNat 12

/-- Strip leading and trailing whitespace, as `int()` does. -/
def pyStrip (cs : List Char) : List Char :=
  ((cs.dropWhile pySpace).reverse.dropWhile pySpace).reverse

/-- Digits of a Python decimal integer literal after its first digit:
underscores may appear singly and only between digits. -/
def pyDigitsGo (acc : Nat) : List Char → Option Nat
  | [] => some acc
  | ['_'] => none
  | '_' :: c :: rest =>
      if c.isDigit then pyDigitsGo (acc * 10 + (c.toNat - 48)) rest else none
  | c :: rest =>
      if c.isDigit then pyDigitsGo (acc * 10 + (c.toNat - 48)) rest else none

/-- A nonempty run of decimal digits (with legal underscores), starting
with a digit. -/
def pyDigitsStart : List Char → Option Nat
  | [] => none
  | c :: rest => if c.isDigit then pyDigitsGo (c.toNat - 48) rest else none

/-- Python `int(s)` in base 10 on ASCII input: `some n` when the call
succeeds, `none` when it raises `ValueError`. -/
def pyIntChars (cs : List Char) : Option Int :=
  match pyStrip cs with
  | '+' :: rest => (pyDigitsStart rest).map Int.ofNat
  | '-' :: rest => (pyDigitsStart rest).map (fun n => -(Int.ofNat n))
  | rest => (pyDigitsStart rest).map Int.ofNat

/-- Python `s.split(":", 1)` followed by unpacking into two variables:
`some (a, b)` splits at the first colon; `none` is the `ValueError`
raised when the string has no colon and the unpacking fails. -/
def splitOnceColon : List Char → Option (List Char × List Char)
  | [] => none
  | c :: cs =>
      if c = ':' then some ([], cs)
      else match splitOnceColon cs with
        | none => none
        | some (a, b) => some (c :: a, b)

/-! ### ExpiryPolicy (`_parse_hhmm`, `_midnight_default`) -/

/-- Minutes in one calendar day. -/
def minutesPerDay : Nat := 1440

/-- Midnight starting the calendar day containing `now`
(`_iso_now().date()` as an instant). -/
def todayStart (now : Nat) : Nat := (now / minutesPerDay) * minutesPerDay

/-- The try-block of `_parse_hhmm` up to the `dtime(hh, mm)` call: split
the text at the first colon, parse both parts with `int()`, and build a
time of day, failing (like the `ValueError` from `dtime`) unless
`0 ≤ hh ≤ 23` and `0 ≤ mm ≤ 59`.  Returns minutes past midnight. -/
def hhmmMinutes (s : String) : Option Nat :=
  match splitOnceColon s.toList with
  | none => none
  | some (a, b) =>
    match pyIntChars a, pyIntChars b with
    | some hh, some mm =>
        if 0 ≤ hh ∧ hh ≤ 23 ∧ 0 ≤ mm ∧ mm ≤ 59 then
          some (hh * 60 + mm).toNat
        else none
    | _, _ => none

/-- `_parse_hhmm(hhmm)`: interpret the text as today at that hour and
minute; if that instant has already passed (`dt <= now`), take the same
time tomorrow.  `none` is the `return None` of the `except` branch. -/
def parse_hhmm (s : String) (now : Nat) : Option Nat :=
  match hhmmMinutes s with
  | none => none
  | some t =>
      let dt := todayStart now + t
      some (if dt ≤ now then dt + minutesPerDay else dt)

/-- `_midnight_default()`: midnight of the day after `now`'s date. -/
def midnight_default (now : Nat) : Nat := todayStart now + minutesPerDay

/-! ### Reservation state (`state["reservations"]`) -/

/-- One reservation record as stored in the snapshot.  `reserved_at` is
the insertion instant; `expires_at` is `some e` for a parseable stored
timestamp and `none` for a missing/empty/unparseable one. -/
structure Reservation where
  user : String
  reserved_at : Nat
  expires_at : Option Nat
deriving DecidableEq, Repr

/-- The in-memory reservations mapping: resource id to record. -/
abbrev Snapshot := List (String × Reservation)

/-- Dictionary access `reservations.get(rid)`. -/
def lookupRes : Snapshot → String → Option Reservation
  | [], _ => none
  | (k, r) :: rest, rid => if k = rid then some r else lookupRes rest rid

/-- Whether `_cleanup_expired` removes this record at instant `now`:
it has a parseable expiry and `exp_dt <= now`. -/
def Reservation.isExpired (r : Reservation) (now : Nat) : Bool :=
  match r.expires_at with
  | some e => e ≤ now
  | none => false

/-- `_cleanup_expired(state)`: drop every entry whose parsed expiry is
`<= now`; keep entries with missing or unparseable expiry.  The second
component is the returned `changed` flag. -/
def cleanup_expired (st : Snapshot) (now : Nat) : Snapshot × Bool :=
  (st.filter (fun p => ! p.2.isExpired now),
   st.any (fun p => p.2.isExpired now))

/-! ### Request handlers (`reserve`, `release`) -/

/-- Outcome of the `/reserve` handler body. `missingId` is the 400
response for a falsy `resource_id`. -/
inductive ReserveResult
  | ok (r : Reservation)
  | alreadyReserved
  | invalidDeadline
  | missingId
deriving DecidableEq, Repr

/-- The `if expires_hhmm: ... else:` block of the `/reserve` handler
that determines the expiration instant.  `deadlineText = some s` models
a submitted `expires_hhmm` form field with value `s`; `none` models an
absent field.  Python's truthiness test sends the empty string down the
`else` (default-deadline) branch together with an absent field. -/
def deadlineFor (deadlineText : Option String) (now : Nat) : Option Nat :=
  match deadlineText with
  | some s => if s = "" then some (midnight_default now) else parse_hhmm s now
  | none => some (midnight_default now)

/-- The rest of the `/reserve` handler body: 400 on a falsy
`resource_id`, `AlreadyReserved` if the id is present, otherwise insert
`{user, reserved_at := now, expires_at := deadline}` (the source stores
the two instants as ISO strings; both round-trip through
`fromisoformat`). -/
def reserveOp (st : Snapshot) (rid : String) (identity : String)
    (deadlineText : Option String) (now : Nat) :
    ReserveResult × Snapshot × Bool :=
  if rid = "" then (.missingId, st, false)
  else if (lookupRes st rid).isSome then (.alreadyReserved, st, false)
  else
    match deadlineFor deadlineText now with
    | none => (.invalidDeadline, st, false)
    | some e =>
        let r : Reservation := ⟨identity, now, some e⟩
        (.ok r, st ++ [(rid, r)], true)

/-- Outcome of the `/release` handler body.  `notReserved` is the branch
in which no reservation exists: the handler redirects without touching
anything. -/
inductive ReleaseResult
  | ok
  | notReserved
  | notOwner
  | missingId
deriving DecidableEq, Repr

/-- The `/release` handler body under the state lock: only the owner may
release; releasing an absent reservation is a silent no-op.  Returns the
result, the new snapshot, and whether `_write_state` was called. -/
def releaseOp (st : Snapshot) (rid : String) (identity : String) :
    ReleaseResult × Snapshot × Bool :=
  if rid = "" then (.missingId, st, false)
  else
    match lookupRes st rid with
    | none => (.notReserved, st, false)
    | some r =>
        if r.user ≠ identity then (.notOwner, st, false)
        else (.ok, st.filter (fun p => ! (p.1 == rid)), true)

/-! ### The operation language and its step function -/

/-- One operation on the reservation state: the expiry sweep run by
`require_login_and_cleanup`, or the body of one of the two mutating
handlers. -/
inductive Op
  | sweep (now : Nat)
  | reserve (rid identity : String) (deadlineText : Option String) (now : Nat)
  | release (rid identity : String)
deriving DecidableEq, Repr

/-- The snapshot after one operation. -/
def stepOp (st : Snapshot) : Op → Snapshot
  | .sweep now => (cleanup_expired st now).1
  | .reserve rid identity d now => (reserveOp st rid identity d now).2.1
  | .release rid identity => (releaseOp st rid identity).2.1

/-- The snapshot after a sequence of operations. -/
def runOps (ops : List Op) (st : Snapshot) : Snapshot :=
  ops.foldl stepOp st

/-- The resource ids currently holding a reservation. -/
def keysOf (st : Snapshot) : List String := st.map Prod.fst

/-! ### StateStore (`_read_state`, `_write_state`)

The store layer works on raw YAML documents, before any timestamp
parsing, so it gets its own value type. -/

/-- A YAML document as `yaml.safe_load` returns it, restricted to
string map keys (the only keys the application ever writes). -/
inductive Yaml
  | null
  | bool (b : Bool)
  | int (n : Int)
  | str (s : String)
  | list (xs : List Yaml)
  | map (kvs : List (String × Yaml))
deriving Repr

/-- Python truthiness of a loaded YAML value, as tested by
`yaml.safe_load(f) or {}`. -/
def Yaml.truthy : Yaml → Bool
  | .null => false
  | .bool b => b
  | .int n => n ≠ 0
  | .str s => s ≠ ""
  | .list xs => !xs.isEmpty
  | .map kvs => !kvs.isEmpty

/-- What `open(STATE_FILE)` + `yaml.safe_load` can encounter: no file at
all, a file whose bytes are not valid YAML, or a parsed document. -/
inductive FileState
  | absent
  | unparseable
  | parsed (y : Yaml)
deriving Repr

/-- Exceptions `_read_state` lets escape to its caller. -/
inductive LoadError
  | yamlError        -- `yaml.safe_load` raised on malformed bytes
  | attributeError   -- `data.setdefault` raised: document is a truthy non-mapping
deriving DecidableEq, Repr

/-- `data.setdefault("reservations", {})`: add an empty reservations
mapping if the key is absent, keeping everything else. -/
def setdefaultReservations (kvs : List (String × Yaml)) : List (String × Yaml) :=
  if (kvs.lookup "reservations").isSome then kvs
  else kvs ++ [("reservations", .map [])]

/-- The empty-state document `{"reservations": {}}`. -/
def emptyStateDoc : List (String × Yaml) := [("reservations", .map [])]

/-- `_read_state()`: an absent file is the valid empty state; otherwise
load the YAML, replace a falsy document by `{}`, and default the
`reservations` key.  `Except.error` models an uncaught exception. -/
def read_state : FileState → Except LoadError (List (String × Yaml))
  | .absent => .ok emptyStateDoc
  | .unparseable => .error .yamlError
  | .parsed y =>
      match (if y.truthy then y else .map []) with
      | .map kvs => .ok (setdefaultReservations kvs)
      | _ => .error .attributeError

/-- The two files `_write_state` touches: the canonical `STATE_FILE` and
the temporary `STATE_FILE + ".tmp"`.  `none` means the file does not
exist; a present canonical file holds a parsed-or-not document. -/
structure StoreFS where
  canon : Option FileState
  tmp : Option Yaml
deriving Repr

/-- First half of `_write_state`: dump the full new state document to
the temporary file.  The canonical file is untouched. -/
def writeTmp (fs : StoreFS) (state : List (String × Yaml)) : StoreFS :=
  { fs with tmp := some (.map state) }

/-- Second half of `_write_state`: `os.replace(tmp, STATE_FILE)`, the
single atomic rename installing the temporary file as the canonical
one. -/
def replaceTmp (fs : StoreFS) : StoreFS :=
  { canon := fs.tmp.map .parsed, tmp := none }

/-- `_write_state(state)`: write the temporary file, then rename. -/
def write_state (fs : StoreFS) (state : List (String × Yaml)) : StoreFS :=
  replaceTmp (writeTmp fs state)

/-- What `Load` sees on this filesystem: `_read_state` reads only the
canonical file. -/
def loadFS (fs : StoreFS) : Except LoadError (List (String × Yaml)) :=
  read_state (fs.canon.getD .absent)

/-! ### Helper lemmas about lookup, keys and the step function -/

theorem keysOf_cons (p : String × Reservation) (rest : Snapshot) :
    keysOf (p :: rest) = p.1 :: keysOf rest := rfl

theorem keysOf_append (st₁ st₂ : Snapshot) :
    keysOf (st₁ ++ st₂) = keysOf st₁ ++ keysOf st₂ := by
  simp [keysOf]

theorem lookupRes_eq_none_iff (st : Snapshot) (rid : String) :
    lookupRes st rid = none ↔ rid ∉ keysOf st := by
  induction st with
  | nil => simp [lookupRes, keysOf]
  | cons p rest ih =>
    obtain ⟨k, r⟩ := p
    by_cases h : k = rid
    · simp only [lookupRes, if_pos h, keysOf_cons, List.mem_cons]
      simp [h]
    · have hne : rid ≠ k := fun hr => h hr.symm
      simp only [lookupRes, if_neg h, keysOf_cons, List.mem_cons, ih]
      tauto

theorem mem_keysOf_of_mem {st : Snapshot} {rid : String} {r : Reservation}
    (h : (rid, r) ∈ st) : rid ∈ keysOf st :=
  List.mem_map_of_mem Prod.fst h

theorem lookupRes_of_mem_nodup {st : Snapshot} {rid : String} {r : Reservation}
    (hnd : (keysOf st).Nodup) (h : (rid, r) ∈ st) :
    lookupRes st rid = some r := by
  induction st with
  | nil => simp at h
  | cons p rest ih =>
    obtain ⟨k, r'⟩ := p
    rw [keysOf_cons, List.nodup_cons] at hnd
    rcases List.mem_cons.mp h with heq | hmem
    · simp only [Prod.mk.injEq] at heq
      simp [lookupRes, heq.1.symm, heq.2]
    · have hk : k ≠ rid := fun hk => hnd.1 (hk ▸ mem_keysOf_of_mem hmem)
      simpa [lookupRes, hk] using ih hnd.2 hmem

theorem keysOf_filter_sublist (st : Snapshot) (p : String × Reservation → Bool) :
    (keysOf (st.filter p)).Sublist (keysOf st) :=
  (List.filter_sublist st).map Prod.fst

theorem filter_key_eq_nil {st : Snapshot} {rid : String}
    (h : rid ∉ keysOf st) : st.filter (fun p => p.1 == rid) = [] := by
  rw [List.filter_eq_nil_iff]
  intro p hp hpe
  exact h (by simpa [← (by simpa using hpe : p.1 = rid)] using mem_keysOf_of_mem hp)

theorem filter_key_length_le_one {st : Snapshot} {rid : String}
    (hnd : (keysOf st).Nodup) :
    (st.filter (fun p => p.1 == rid)).length ≤ 1 := by
  induction st with
  | nil => simp
  | cons p rest ih =>
    obtain ⟨k, r⟩ := p
    simp only [keysOf, List.map_cons, List.nodup_cons] at hnd
    by_cases h : k = rid
    · have : rest.filter (fun p => p.1 == rid) = [] :=
        filter_key_eq_nil (h ▸ hnd.1)
      simp [List.filter_cons, h, this]
    · simpa [List.filter_cons, h] using ih hnd.2

theorem keysOf_nodup_stepOp (st : Snapshot) (op : Op)
    (hnd : (keysOf st).Nodup) : (keysOf (stepOp st op)).Nodup := by
  cases op with
  | sweep now =>
    exact ((keysOf_filter_sublist st _).nodup) hnd
  | reserve rid identity d now =>
    simp only [stepOp, reserveOp]
    split
    · exact hnd
    · split
      · exact hnd
      · rename_i hfree
        split
        · exact hnd
        · have hout : rid ∉ keysOf st := by
            rw [← lookupRes_eq_none_iff]
            exact Option.not_isSome_iff_eq_none.mp hfree
          rw [keysOf_append]
          exact hnd.append (List.nodup_singleton rid)
            (by
              simp only [keysOf, List.map_cons, List.map_nil,
                List.disjoint_singleton]
              exact hout)
  | release rid identity =>
    simp only [stepOp, releaseOp]
    split
    · exact hnd
    · split
      · exact hnd
      · split
        · exact hnd
        · exact ((keysOf_filter_sublist st _).nodup) hnd

theorem keysOf_nodup_runOps (ops : List Op) (st : Snapshot)
    (hnd : (keysOf st).Nodup) : (keysOf (runOps ops st)).Nodup := by
  induction ops generalizing st with
  | nil => simpa [runOps]
  | cons op rest ih =>
    simpa [runOps, List.foldl_cons] using
      ih (stepOp st op) (keysOf_nodup_stepOp st op hnd)

example : hhmmMinutes "08:00" = some 480 := by decide
example : hhmmMinutes "8:3" = some 483 := by decide
example : hhmmMinutes "24:00" = none := by decide
example : hhmmMinutes "" = none := by decide
example : hhmmMinutes "0800" = none := by decide
example : parse_hhmm "08:00" (3 * 1440 + 540) = some (4 * 1440 + 480) := by decide
example : parse_hhmm "08:00" (3 * 1440 + 420) = some (3 * 1440 + 480) := by decide

/-! ### Arithmetic facts about the expiry policy -/

theorem todayStart_add (D t : Nat) (ht : t < 1440) :
    todayStart (D * 1440 + t) = D * 1440 := by
  simp only [todayStart, minutesPerDay]
  have h : (D * 1440 + t) / 1440 = D := by omega
  rw [h]

theorem lt_midnight_default (now : Nat) : now < midnight_default now := by
  simp only [midnight_default, todayStart, minutesPerDay]
  omega

theorem lt_parse_hhmm {s : String} {now e : Nat}
    (h : parse_hhmm s now = some e) : now < e := by
  unfold parse_hhmm at h
  cases hm : hhmmMinutes s with
  | none => simp [hm] at h
  | some t =>
    simp only [hm] at h
    have he := Option.some.inj h
    simp only [todayStart, minutesPerDay] at he
    split at he <;> omega

theorem deadlineFor_gt {d : Option String} {now e : Nat}
    (h : deadlineFor d now = some e) : now < e := by
  cases d with
  | none =>
    cases Option.some.inj h
    exact lt_midnight_default now
  | some s =>
    by_cases hs : s = ""
    · rw [deadlineFor, if_pos hs] at h
      cases Option.some.inj h
      exact lt_midnight_default now
    · rw [deadlineFor, if_neg hs] at h
      exact lt_parse_hhmm h

/-! ### The claims -/

/-- Claim C1: at most one live reservation per resource id.  Any
sequence of sweep/reserve/release operations started from the empty
state leaves at most one entry for each resource id, and a reserve on an
id that is present after the sweep returns `AlreadyReserved`, inserts
nothing, and persists nothing. -/
theorem mutual_exclusion_at_most_one :
    (∀ (ops : List Op) (rid : String),
       ((runOps ops []).filter (fun p => p.1 == rid)).length ≤ 1) ∧
    (∀ (st : Snapshot) (rid identity : String) (d : Option String)
       (now : Nat) (r : Reservation), rid ≠ "" → lookupRes st rid = some r →
       reserveOp st rid identity d now = (.alreadyReserved, st, false)) := by
  constructor
  · intro ops rid
    exact filter_key_length_le_one (keysOf_nodup_runOps ops [] (by simp [keysOf]))
  · intro st rid identity d now r hrid hlook
    simp [reserveOp, hrid, hlook]

/-- Witness for C1: one reserve from empty, and a reserve on an already
reserved id, at concrete inputs. -/
theorem mutual_exclusion_at_most_one_witness :
    ((runOps [Op.reserve "desk-1" "alice" none 0] []).filter
        (fun p => p.1 == "desk-1")).length ≤ 1 ∧
    reserveOp [("desk-1", ⟨"alice", 0, some 1440⟩)] "desk-1" "bob" none 5 =
      (.alreadyReserved, [("desk-1", ⟨"alice", 0, some 1440⟩)], false) :=
  ⟨mutual_exclusion_at_most_one.1 [Op.reserve "desk-1" "alice" none 0] "desk-1",
   mutual_exclusion_at_most_one.2 [("desk-1", ⟨"alice", 0, some 1440⟩)]
     "desk-1" "bob" none 5 ⟨"alice", 0, some 1440⟩ (by decide) rfl⟩

/-- Claim C2: the sweep removes exactly the entries whose expiry has
passed, boundary included — an entry with parsed expiry `T` is in the
post-sweep state iff `now < T`. -/
theorem sweep_expiry_boundary (st : Snapshot) (now : Nat) (rid : String)
    (r : Reservation) (T : Nat) (hmem : (rid, r) ∈ st)
    (hexp : r.expires_at = some T) :
    ((rid, r) ∈ (cleanup_expired st now).1 ↔ now < T) := by
  simp [cleanup_expired, List.mem_filter, hmem, Reservation.isExpired, hexp,
    Nat.not_le]

/-- Witness for C2 at a concrete snapshot and instant. -/
theorem sweep_expiry_boundary_witness :
    (("desk-1", (⟨"alice", 0, some 10⟩ : Reservation)) ∈
        (cleanup_expired [("desk-1", ⟨"alice", 0, some 10⟩)] 3).1 ↔ 3 < 10) :=
  sweep_expiry_boundary [("desk-1", ⟨"alice", 0, some 10⟩)] 3 "desk-1"
    ⟨"alice", 0, some 10⟩ 10 (by decide) rfl

/-- Claim C3: a valid `HH:MM` text is read as that time of day today and
rolls forward exactly one day iff that instant is `≤ now`; in
particular `"08:00"` at 09:00 of day `D` gives 08:00 of day `D + 1`, and
at 07:00 of day `D` gives 08:00 of day `D`. -/
theorem parse_deadline_rollforward :
    (∀ (s : String) (now t : Nat), hhmmMinutes s = some t →
       parse_hhmm s now =
         some (if todayStart now + t ≤ now
               then todayStart now + t + minutesPerDay
               else todayStart now + t)) ∧
    (∀ D : Nat,
       parse_hhmm "08:00" (D * 1440 + 540) = some ((D + 1) * 1440 + 480) ∧
       parse_hhmm "08:00" (D * 1440 + 420) = some (D * 1440 + 480)) := by
  have h8 : hhmmMinutes "08:00" = some 480 := by decide
  constructor
  · intro s now t h
    simp [parse_hhmm, h]
  · intro D
    constructor
    · simp only [parse_hhmm, h8, todayStart_add D 540 (by norm_num),
        minutesPerDay]
      rw [if_pos (by omega)]
      simp only [Option.some.injEq]
      omega
    · simp only [parse_hhmm, h8, todayStart_add D 420 (by norm_num),
        minutesPerDay]
      rw [if_neg (by omega)]

/-- Witness for C3: the general roll rule applied to `"08:00"`, plus the
two concrete-day instances at day 3. -/
theorem parse_deadline_rollforward_witness :
    parse_hhmm "08:00" 100 =
      some (if todayStart 100 + 480 ≤ 100
            then todayStart 100 + 480 + minutesPerDay
            else todayStart 100 + 480) ∧
    parse_hhmm "08:00" (3 * 1440 + 540) = some ((3 + 1) * 1440 + 480) ∧
    parse_hhmm "08:00" (3 * 1440 + 420) = some (3 * 1440 + 480) :=
  ⟨parse_deadline_rollforward.1 "08:00" 100 480 (by decide),
   (parse_deadline_rollforward.2 3).1, (parse_deadline_rollforward.2 3).2⟩

/-- Claim C4: every reservation inserted by a successful reserve has
`reserved_at = now` and a parseable expiry strictly later than `now`,
for any deadline text or its absence. -/
theorem reserve_expires_after_reserved (st : Snapshot)
    (rid identity : String) (d : Option String) (now : Nat)
    (r : Reservation) (st' : Snapshot) (persisted : Bool)
    (h : reserveOp st rid identity d now = (.ok r, st', persisted)) :
    r.reserved_at = now ∧ ∃ e, r.expires_at = some e ∧ now < e := by
  unfold reserveOp at h
  split at h
  · exact absurd h (by simp)
  · split at h
    · exact absurd h (by simp)
    · rcases hd : deadlineFor d now with _ | e
      · rw [hd] at h
        exact absurd h (by simp)
      · rw [hd] at h
        simp only [Prod.mk.injEq, ReserveResult.ok.injEq] at h
        rw [← h.1]
        exact ⟨rfl, e, rfl, deadlineFor_gt hd⟩

/-- Witness for C4 at a concrete successful reserve. -/
theorem reserve_expires_after_reserved_witness :
    (⟨"alice", 100, some 1440⟩ : Reservation).reserved_at = 100 ∧
    ∃ e, (⟨"alice", 100, some 1440⟩ : Reservation).expires_at = some e ∧
      100 < e :=
  reserve_expires_after_reserved [] "desk-1" "alice" none 100
    ⟨"alice", 100, some 1440⟩ [("desk-1", ⟨"alice", 100, some 1440⟩)] true
    (by decide)

theorem lookupRes_filter_out (st : Snapshot) (rid : String) :
    lookupRes (st.filter (fun p => ! (p.1 == rid))) rid = none := by
  rw [lookupRes_eq_none_iff]
  intro hmem
  obtain ⟨p, hp, hfst⟩ := List.mem_map.mp hmem
  have hkeep := (List.mem_filter.mp hp).2
  simp [hfst] at hkeep

/-- Claim C6: only the reserving identity can release.  When `rid` holds
a reservation and the caller differs from its user, release returns
`NotOwner`, keeps the snapshot (hence the same record, same
`reserved_at` and `expires_at`), and persists nothing. -/
theorem release_not_owner (st : Snapshot) (rid v : String) (r : Reservation)
    (hrid : rid ≠ "") (hlook : lookupRes st rid = some r)
    (hne : v ≠ r.user) :
    releaseOp st rid v = (.notOwner, st, false) ∧
    lookupRes (releaseOp st rid v).2.1 rid = some r := by
  have hnv : r.user ≠ v := fun h => hne h.symm
  have hres : releaseOp st rid v = (.notOwner, st, false) := by
    simp [releaseOp, hrid, hlook, hnv]
  exact ⟨hres, by rw [hres]; exact hlook⟩

/-- Witness for C6: bob cannot release alice's reservation. -/
theorem release_not_owner_witness :
    releaseOp [("desk-1", ⟨"alice", 0, some 10⟩)] "desk-1" "bob" =
      (.notOwner, [("desk-1", ⟨"alice", 0, some 10⟩)], false) ∧
    lookupRes (releaseOp [("desk-1", ⟨"alice", 0, some 10⟩)]
        "desk-1" "bob").2.1 "desk-1" = some ⟨"alice", 0, some 10⟩ :=
  release_not_owner [("desk-1", ⟨"alice", 0, some 10⟩)] "desk-1" "bob"
    ⟨"alice", 0, some 10⟩ (by decide) rfl (by decide)

/-- Claim C7: release of an absent reservation is a silent no-op
returning the `NotReserved` outcome with nothing written, and after a
successful release a second release by the same caller lands in exactly
that no-op case. -/
theorem release_idempotent (st : Snapshot) (rid u : String) (hrid : rid ≠ "") :
    (lookupRes st rid = none → releaseOp st rid u = (.notReserved, st, false)) ∧
    (∀ r, lookupRes st rid = some r → r.user = u →
       (releaseOp st rid u).1 = .ok ∧
       releaseOp (releaseOp st rid u).2.1 rid u =
         (.notReserved, (releaseOp st rid u).2.1, false)) := by
  constructor
  · intro hnone
    simp [releaseOp, hrid, hnone]
  · intro r hsome huser
    have hstep : releaseOp st rid u =
        (.ok, st.filter (fun p => ! (p.1 == rid)), true) := by
      simp [releaseOp, hrid, hsome, huser]
    refine ⟨by rw [hstep], ?_⟩
    rw [hstep]
    simp [releaseOp, hrid, lookupRes_filter_out st rid]

/-- Witness for C7: releasing twice in a row at concrete inputs. -/
theorem release_idempotent_witness :
    releaseOp [] "desk-1" "alice" = (.notReserved, [], false) ∧
    (releaseOp [("desk-1", ⟨"alice", 0, some 10⟩)] "desk-1" "alice").1 = .ok ∧
    releaseOp (releaseOp [("desk-1", ⟨"alice", 0, some 10⟩)]
        "desk-1" "alice").2.1 "desk-1" "alice" =
      (.notReserved,
       (releaseOp [("desk-1", ⟨"alice", 0, some 10⟩)] "desk-1" "alice").2.1,
       false) :=
  ⟨(release_idempotent [] "desk-1" "alice" (by decide)).1 rfl,
   (release_idempotent [("desk-1", ⟨"alice", 0, some 10⟩)] "desk-1" "alice"
      (by decide)).2 ⟨"alice", 0, some 10⟩ rfl rfl⟩

/-- Counterexample to C5 as stated: the empty string does not match
`HH:MM` (its parse fails), yet a reserve submitting it as the deadline
text succeeds with the default midnight deadline instead of returning
`InvalidDeadline`, because the handler's truthiness test routes the
empty field to the default branch. -/
theorem invalid_deadline_counterexample :
    hhmmMinutes "" = none ∧
    parse_hhmm "" 600 = none ∧
    reserveOp [] "desk-1" "alice" (some "") 600 =
      (.ok ⟨"alice", 600, some 1440⟩,
       [("desk-1", ⟨"alice", 600, some 1440⟩)], true) := by
  refine ⟨by decide, by decide, by decide⟩

/-- Claim C5 (amended): every string whose `HH:MM` parse fails is
rejected by `_parse_hhmm` with `None` (`InvalidTimeFormat`) rather than
a crash, and a reserve of a free resource submitting such a *nonempty*
deadline text returns `InvalidDeadline` with the snapshot untouched and
nothing persisted (an empty deadline text is treated as an absent field
and falls back to the default deadline). -/
theorem invalid_deadline_rejected (s : String) (now : Nat) (st : Snapshot)
    (rid identity : String) (hs : hhmmMinutes s = none) (hne : s ≠ "")
    (hrid : rid ≠ "") (hfree : lookupRes st rid = none) :
    parse_hhmm s now = none ∧
    reserveOp st rid identity (some s) now = (.invalidDeadline, st, false) := by
  have hp : parse_hhmm s now = none := by simp [parse_hhmm, hs]
  refine ⟨hp, ?_⟩
  simp [reserveOp, hrid, hfree, deadlineFor, hne, hp]

/-- Witness for C5 (amended) at a concrete malformed text. -/
theorem invalid_deadline_rejected_witness :
    parse_hhmm "soon" 42 = none ∧
    reserveOp [] "desk-1" "alice" (some "soon") 42 =
      (.invalidDeadline, [], false) :=
  invalid_deadline_rejected "soon" 42 [] "desk-1" "alice"
    (by decide) (by decide) (by decide) rfl

/-- Counterexample to C8 as stated: a state file that exists but holds
the YAML document `null` (what `yaml.safe_load` returns for an empty
file) is present-but-malformed persisted data, yet `_read_state`
silently returns the empty snapshot instead of surfacing an error. -/
theorem load_malformed_counterexample :
    FileState.parsed Yaml.null ≠ FileState.absent ∧
    read_state (FileState.parsed Yaml.null) = .ok emptyStateDoc :=
  ⟨fun h => FileState.noConfusion h, rfl⟩

/-- Claim C8 (amended): an absent file loads as the empty snapshot; a
file whose bytes fail YAML parsing, or whose document is a truthy
non-mapping, surfaces a fatal error; but a document that is YAML-falsy
(null/false/0/empty string/empty list/empty mapping) silently loads as
the empty snapshot, and any mapping loads with an empty `reservations`
key defaulted in rather than being validated. -/
theorem load_behavior :
    read_state .absent = .ok emptyStateDoc ∧
    read_state .unparseable = .error .yamlError ∧
    (∀ kvs, read_state (.parsed (.map kvs)) =
        .ok (setdefaultReservations kvs)) ∧
    (∀ y, y.truthy = true → (∀ kvs, y ≠ .map kvs) →
        read_state (.parsed y) = .error .attributeError) ∧
    (∀ y, y.truthy = false → read_state (.parsed y) = .ok emptyStateDoc) := by
  refine ⟨rfl, rfl, ?_, ?_, ?_⟩
  · intro kvs
    cases kvs with
    | nil => rfl
    | cons p rest => rfl
  · intro y hy hnm
    cases y with
    | null => simp [Yaml.truthy] at hy
    | bool b => simp [read_state, hy]
    | int n => simp [read_state, hy]
    | str s => simp [read_state, hy]
    | list xs => simp [read_state, hy]
    | map kvs => exact absurd rfl (hnm kvs)
  · intro y hy
    simp only [read_state, hy]
    rfl

/-- Witness for C8 (amended): a truthy non-mapping document errors, a
falsy one loads empty. -/
theorem load_behavior_witness :
    read_state (.parsed (.str "oops")) = .error .attributeError ∧
    read_state (.parsed (.list [])) = .ok emptyStateDoc :=
  ⟨load_behavior.2.2.2.1 (.str "oops") (by decide)
     (fun kvs h => Yaml.noConfusion h),
   load_behavior.2.2.2.2 (.list []) rfl⟩

/-- Claim C9: `_write_state` is the temporary-file write followed by the
single atomic rename; the canonical file is never written in place, so
after a crash between the two steps `Load` still returns the previous
snapshot, and a completed save installs exactly the new document. -/
theorem save_atomic (fs : StoreFS) (state : List (String × Yaml)) :
    write_state fs state = replaceTmp (writeTmp fs state) ∧
    (writeTmp fs state).canon = fs.canon ∧
    loadFS (writeTmp fs state) = loadFS fs ∧
    (write_state fs state).canon = some (.parsed (.map state)) :=
  ⟨rfl, rfl, rfl, rfl⟩

/-- Claim C10 (implicit): an entry whose stored `expires_at` is missing
or unparseable is never removed (and never crashes) in any sweep, and
among all operations only a release by the entry's own user can remove
it from the state. -/
theorem unparseable_expiry_survives (st : Snapshot) (rid : String)
    (r : Reservation) (hexp : r.expires_at = none) (hmem : (rid, r) ∈ st) :
    (∀ now, (rid, r) ∈ (cleanup_expired st now).1) ∧
    (∀ op, (keysOf st).Nodup → (rid, r) ∉ stepOp st op →
       op = Op.release rid r.user) := by
  constructor
  · intro now
    simp [cleanup_expired, List.mem_filter, hmem, Reservation.isExpired, hexp]
  · intro op hnd hout
    cases op with
    | sweep now =>
      exact absurd (by
        simp [stepOp, cleanup_expired, List.mem_filter, hmem,
          Reservation.isExpired, hexp]) hout
    | reserve rid2 id2 d now =>
      exfalso
      apply hout
      simp only [stepOp, reserveOp]
      split
      · exact hmem
      · split
        · exact hmem
        · split
          · exact hmem
          · exact List.mem_append_left _ hmem
    | release rid2 id2 =>
      simp only [stepOp, releaseOp] at hout
      by_cases h2 : rid2 = ""
      · rw [if_pos h2] at hout
        exact absurd hmem hout
      rw [if_neg h2] at hout
      cases hl : lookupRes st rid2 with
      | none =>
        simp only [hl] at hout
        exact absurd hmem hout
      | some r2 =>
        simp only [hl] at hout
        by_cases hu : r2.user ≠ id2
        · rw [if_pos hu] at hout
          exact absurd hmem hout
        · rw [if_neg hu] at hout
          push_neg at hu
          have hkey : rid = rid2 := by
            by_contra hkne
            exact hout (List.mem_filter.mpr ⟨hmem, by simp [hkne]⟩)
          subst hkey
          have hr2 : r2 = r := by
            have hlk := lookupRes_of_mem_nodup hnd hmem
            rw [hl] at hlk
            exact Option.some.inj hlk
          subst hr2
          rw [hu]

/-- Witness for C10: an entry with unparseable expiry survives a sweep,
and the operation removing it is exactly its owner's release. -/
theorem unparseable_expiry_survives_witness :
    ("desk-1", (⟨"alice", 0, none⟩ : Reservation)) ∈
      (cleanup_expired [("desk-1", ⟨"alice", 0, none⟩)] 99).1 ∧
    Op.release "desk-1" "alice" =
      Op.release "desk-1" (⟨"alice", 0, none⟩ : Reservation).user :=
  ⟨(unparseable_expiry_survives [("desk-1", ⟨"alice", 0, none⟩)] "desk-1"
      ⟨"alice", 0, none⟩ rfl (by decide)).1 99,
   (unparseable_expiry_survives [("desk-1", ⟨"alice", 0, none⟩)] "desk-1"
      ⟨"alice", 0, none⟩ rfl (by decide)).2 (Op.release "desk-1" "alice")
      (by decide) (by decide)⟩
